import Mathlib

/-!
Verification of the photo cache (`src/app/storage.py`, class `PhotoStore`)
and the admin photo-upload handler (`src/app/main.py`) of the
circus-marketing-bot repository, by a shallow embedding in Lean 4.

The SQLite table `photos (slug TEXT PRIMARY KEY, file_id TEXT NOT NULL)`
is modelled as an association list from slugs to file ids, together with
an `Option` wrapper recording whether the table exists (before `init` it
does not, and SQLite raises "no such table").  Disk or permission failure
of the underlying store is modelled by the `available` flag: every
operation opens its own connection, and when the store is unavailable the
connect raises and the operation propagates the error unchanged, exactly
as the Python code does (it installs no exception handler).
-/

/-- Errors that the underlying SQLite layer can raise and that the
Python methods propagate unhandled. -/
inductive StorageError where
  | unavailable
  | noSuchTable
deriving DecidableEq, Repr

/-- The persistent state behind a `PhotoStore`: the `photos` table (absent
until `init` has created it) and whether the underlying storage (disk,
permissions) is currently usable. -/
structure DB where
  photosTable : Option (List (String × String))
  available : Bool
deriving DecidableEq, Repr

namespace PhotoStore

/-- `PhotoStore.init`: `CREATE TABLE IF NOT EXISTS photos (...)`.
Creates the empty table when absent, leaves it untouched when present. -/
def init (db : DB) : Except StorageError DB :=
  match db.available, db.photosTable with
  | false, _ => .error .unavailable
  | true, none => .ok { db with photosTable := some [] }
  | true, some _ => .ok db

/-- The effect of
`INSERT INTO photos(slug, file_id) VALUES(?, ?) ON CONFLICT(slug) DO UPDATE
SET file_id=excluded.file_id` on the table contents: update the row with
this slug if one exists, otherwise insert a new row. -/
def upsert : List (String × String) → String → String → List (String × String)
  | [], slug, fid => [(slug, fid)]
  | (s, f) :: rest, slug, fid =>
    if s = slug then (s, fid) :: rest
    else (s, f) :: upsert rest slug fid

/-- `PhotoStore.set_file_id`: upsert the row for `slug`. -/
def set_file_id (db : DB) (slug fid : String) : Except StorageError DB :=
  match db.available, db.photosTable with
  | false, _ => .error .unavailable
  | true, none => .error .noSuchTable
  | true, some t => .ok { db with photosTable := some (upsert t slug fid) }

/-- The effect of `SELECT file_id FROM photos WHERE slug=?` followed by
`fetchone`: the first row with this slug, if any. -/
def lookupFileId : List (String × String) → String → Option String
  | [], _ => none
  | (s, f) :: rest, slug => if s = slug then some f else lookupFileId rest slug

/-- `PhotoStore.get_file_id`: `row[0] if row else None`.  The returned
pair makes the (absent) state change of the read explicit. -/
def get_file_id (db : DB) (slug : String) : Except StorageError (DB × Option String) :=
  match db.available, db.photosTable with
  | false, _ => .error .unavailable
  | true, none => .error .noSuchTable
  | true, some t => .ok (db, lookupFileId t slug)

end PhotoStore

/-- After an upsert for `s`, looking up `s` finds the new file id. -/
theorem lookupFileId_upsert_self (t : List (String × String)) (s f : String) :
    PhotoStore.lookupFileId (PhotoStore.upsert t s f) s = some f := by
  induction t with
  | nil => simp [PhotoStore.upsert, PhotoStore.lookupFileId]
  | cons hd tl ih =>
    obtain ⟨a, b⟩ := hd
    by_cases h : a = s
    · subst h
      simp [PhotoStore.upsert, PhotoStore.lookupFileId]
    · simp [PhotoStore.upsert, PhotoStore.lookupFileId, h, ih]

/-- An upsert for `s` does not change the lookup of any other slug. -/
theorem lookupFileId_upsert_other (t : List (String × String)) (s f s' : String)
    (h : s' ≠ s) :
    PhotoStore.lookupFileId (PhotoStore.upsert t s f) s' =
      PhotoStore.lookupFileId t s' := by
  induction t with
  | nil =>
    simp [PhotoStore.upsert, PhotoStore.lookupFileId, Ne.symm h]
  | cons hd tl ih =>
    obtain ⟨a, b⟩ := hd
    by_cases ha : a = s
    · subst ha
      simp [PhotoStore.upsert, PhotoStore.lookupFileId, Ne.symm h]
    · by_cases ha' : a = s'
      · subst ha'
        simp [PhotoStore.upsert, PhotoStore.lookupFileId, ha]
      · simp [PhotoStore.upsert, PhotoStore.lookupFileId, ha, ha', ih]

/-- C1: For every slug `s` and references `r1`, `r2`: after `set(s, r1)`
and then `set(s, r2)` on an initialized, available photo store, `get(s)`
returns `r2` — the second write overwrites the first (last-write-wins). -/
theorem photoStore_last_write_wins (db : DB) (t : List (String × String))
    (s r1 r2 : String) (hav : db.available = true) (ht : db.photosTable = some t) :
    ∃ db1 db2,
      PhotoStore.set_file_id db s r1 = .ok db1 ∧
      PhotoStore.set_file_id db1 s r2 = .ok db2 ∧
      PhotoStore.get_file_id db2 s = .ok (db2, some r2) := by
  refine ⟨DB.mk (some (PhotoStore.upsert t s r1)) db.available,
          DB.mk (some (PhotoStore.upsert (PhotoStore.upsert t s r1) s r2)) db.available,
          ?_, ?_, ?_⟩
  · simp [PhotoStore.set_file_id, hav, ht]
  · simp [PhotoStore.set_file_id, hav]
  · simp [PhotoStore.get_file_id, hav, lookupFileId_upsert_self]

/-- Witness for C1 at a concrete store and inputs (the spec's own example
`set("bob","f1"); set("bob","f2"); get("bob") == "f2"`). -/
theorem photoStore_last_write_wins_witness :
    (DB.mk (some []) true).available = true ∧
    (DB.mk (some []) true).photosTable = some [] ∧
    ∃ db1 db2,
      PhotoStore.set_file_id (DB.mk (some []) true) "bob" "f1" = .ok db1 ∧
      PhotoStore.set_file_id db1 "bob" "f2" = .ok db2 ∧
      PhotoStore.get_file_id db2 "bob" = .ok (db2, some "f2") :=
  ⟨rfl, rfl, photoStore_last_write_wins (DB.mk (some []) true) [] "bob" "f1" "f2" rfl rfl⟩

/-- C2: after `set(s, r)` completes on an initialized, available store, a
subsequent `get(s)` returns `r`. -/
theorem photoStore_set_then_get (db : DB) (t : List (String × String))
    (s r : String) (hav : db.available = true) (ht : db.photosTable = some t) :
    ∃ db', PhotoStore.set_file_id db s r = .ok db' ∧
      PhotoStore.get_file_id db' s = .ok (db', some r) := by
  refine ⟨DB.mk (some (PhotoStore.upsert t s r)) db.available, ?_, ?_⟩
  · simp [PhotoStore.set_file_id, hav, ht]
  · simp [PhotoStore.get_file_id, hav, lookupFileId_upsert_self]

/-- Witness for C2 at the spec's example
`set("alice", "file123"); get("alice") == "file123"`. -/
theorem photoStore_set_then_get_witness :
    (DB.mk (some []) true).available = true ∧
    (DB.mk (some []) true).photosTable = some [] ∧
    ∃ db', PhotoStore.set_file_id (DB.mk (some []) true) "alice" "file123" = .ok db' ∧
      PhotoStore.get_file_id db' "alice" = .ok (db', some "file123") :=
  ⟨rfl, rfl, photoStore_set_then_get (DB.mk (some []) true) [] "alice" "file123" rfl rfl⟩

/-- C4: `init` is idempotent.  If a call to `init` succeeded and produced
state `db'`, then a second call on `db'` also succeeds and returns `db'`
unchanged; moreover the first call already preserved every existing
slug-to-file_id mapping (`CREATE TABLE IF NOT EXISTS` touches nothing when
the table is present). -/
theorem photoStore_init_idempotent (db db' : DB)
    (h : PhotoStore.init db = .ok db') :
    PhotoStore.init db' = .ok db' ∧
      ∀ t, db.photosTable = some t → db'.photosTable = some t := by
  obtain ⟨pt, av⟩ := db
  cases av with
  | false => simp [PhotoStore.init] at h
  | true =>
    cases pt with
    | none =>
      simp only [PhotoStore.init, Except.ok.injEq] at h
      subst h
      exact ⟨rfl, by intro t ht; exact absurd ht (by simp)⟩
    | some t0 =>
      simp only [PhotoStore.init, Except.ok.injEq] at h
      subst h
      exact ⟨rfl, by intro t ht; exact ht⟩

/-- Witness for C4: a second `init` on a freshly initialized store is a
no-op returning success. -/
theorem photoStore_init_idempotent_witness :
    PhotoStore.init (DB.mk none true) = .ok (DB.mk (some []) true) ∧
      (PhotoStore.init (DB.mk (some []) true) = .ok (DB.mk (some []) true) ∧
        ∀ t, (DB.mk none true).photosTable = some t →
          (DB.mk (some []) true).photosTable = some t) :=
  ⟨rfl, photoStore_init_idempotent (DB.mk none true) (DB.mk (some []) true) rfl⟩

/-- C6: when the underlying storage is unavailable, every operation
(`init`, `set`, `get`) propagates the failure as an error to the caller:
no retry, no fallback, and no result value is produced. -/
theorem photoStore_unavailable_propagates (db : DB) (s f : String)
    (h : db.available = false) :
    PhotoStore.init db = .error .unavailable ∧
      PhotoStore.set_file_id db s f = .error .unavailable ∧
      PhotoStore.get_file_id db s = .error .unavailable := by
  obtain ⟨pt, av⟩ := db
  simp only at h
  subst h
  exact ⟨rfl, rfl, rfl⟩

/-- Witness for C6 at a concrete unavailable store. -/
theorem photoStore_unavailable_propagates_witness :
    (DB.mk (some [("alice", "file123")]) false).available = false ∧
    (PhotoStore.init (DB.mk (some [("alice", "file123")]) false) = .error .unavailable ∧
      PhotoStore.set_file_id (DB.mk (some [("alice", "file123")]) false) "bob" "f1" =
        .error .unavailable ∧
      PhotoStore.get_file_id (DB.mk (some [("alice", "file123")]) false) "bob" =
        .error .unavailable) :=
  ⟨rfl, photoStore_unavailable_propagates (DB.mk (some [("alice", "file123")]) false)
    "bob" "f1" rfl⟩

/-- C7: writes to distinct slugs do not interfere.  After `set(s1, r1)`
and then `set(s2, r2)` with `s1 ≠ s2`, `get(s1)` returns `r1` and
`get(s2)` returns `r2`; and a `set` on `s1` leaves the mapping of every
other slug exactly as it was before the write. -/
theorem photoStore_distinct_slugs_independent (db : DB) (t : List (String × String))
    (s1 s2 r1 r2 : String) (hne : s1 ≠ s2)
    (hav : db.available = true) (ht : db.photosTable = some t) :
    ∃ db1 db2,
      PhotoStore.set_file_id db s1 r1 = .ok db1 ∧
      PhotoStore.set_file_id db1 s2 r2 = .ok db2 ∧
      PhotoStore.get_file_id db2 s1 = .ok (db2, some r1) ∧
      PhotoStore.get_file_id db2 s2 = .ok (db2, some r2) ∧
      ∀ s, s ≠ s1 →
        PhotoStore.get_file_id db s = .ok (db, PhotoStore.lookupFileId t s) ∧
        PhotoStore.get_file_id db1 s = .ok (db1, PhotoStore.lookupFileId t s) := by
  refine ⟨DB.mk (some (PhotoStore.upsert t s1 r1)) db.available,
          DB.mk (some (PhotoStore.upsert (PhotoStore.upsert t s1 r1) s2 r2)) db.available,
          ?_, ?_, ?_, ?_, ?_⟩
  · simp [PhotoStore.set_file_id, hav, ht]
  · simp [PhotoStore.set_file_id, hav]
  · rw [show PhotoStore.get_file_id
        (DB.mk (some (PhotoStore.upsert (PhotoStore.upsert t s1 r1) s2 r2)) db.available) s1 =
        .ok (DB.mk (some (PhotoStore.upsert (PhotoStore.upsert t s1 r1) s2 r2)) db.available,
          PhotoStore.lookupFileId (PhotoStore.upsert (PhotoStore.upsert t s1 r1) s2 r2) s1)
      from by simp [PhotoStore.get_file_id, hav]]
    rw [lookupFileId_upsert_other _ _ _ _ hne, lookupFileId_upsert_self]
  · simp [PhotoStore.get_file_id, hav, lookupFileId_upsert_self]
  · intro s hs
    constructor
    · obtain ⟨pt, av⟩ := db
      simp only at hav ht
      subst hav
      subst ht
      simp [PhotoStore.get_file_id]
    · simp [PhotoStore.get_file_id, hav, lookupFileId_upsert_other _ _ _ _ hs]

/-- Witness for C7 with slugs "alice" and "bob" over a store already
holding a third slug "carol", whose mapping the writes leave intact. -/
theorem photoStore_distinct_slugs_independent_witness :
    ("alice" : String) ≠ "bob" ∧
    ∃ db1 db2,
      PhotoStore.set_file_id (DB.mk (some [("carol", "f0")]) true) "alice" "f1" = .ok db1 ∧
      PhotoStore.set_file_id db1 "bob" "f2" = .ok db2 ∧
      PhotoStore.get_file_id db2 "alice" = .ok (db2, some "f1") ∧
      PhotoStore.get_file_id db2 "bob" = .ok (db2, some "f2") ∧
      ∀ s, s ≠ "alice" →
        PhotoStore.get_file_id (DB.mk (some [("carol", "f0")]) true) s =
          .ok (DB.mk (some [("carol", "f0")]) true,
            PhotoStore.lookupFileId [("carol", "f0")] s) ∧
        PhotoStore.get_file_id db1 s =
          .ok (db1, PhotoStore.lookupFileId [("carol", "f0")] s) :=
  ⟨by decide, photoStore_distinct_slugs_independent (DB.mk (some [("carol", "f0")]) true)
    [("carol", "f0")] "alice" "bob" "f1" "f2" (by decide) rfl rfl⟩

/-- C8: `get` is a pure read: whenever it returns a result, the store
state it hands back is exactly the state it was given — no write, and on
failure no state is produced at all. -/
theorem photoStore_get_pure (db : DB) (s : String) (db' : DB) (r : Option String)
    (h : PhotoStore.get_file_id db s = .ok (db', r)) : db' = db := by
  obtain ⟨pt, av⟩ := db
  cases av with
  | false => simp [PhotoStore.get_file_id] at h
  | true =>
    cases pt with
    | none => simp [PhotoStore.get_file_id] at h
    | some t =>
      simp only [PhotoStore.get_file_id, Except.ok.injEq, Prod.mk.injEq] at h
      exact h.1.symm

/-- Witness for C8 at a concrete store and slug. -/
theorem photoStore_get_pure_witness :
    PhotoStore.get_file_id (DB.mk (some [("alice", "f1")]) true) "alice" =
      .ok (DB.mk (some [("alice", "f1")]) true, some "f1") ∧
    DB.mk (some [("alice", "f1")]) true = DB.mk (some [("alice", "f1")]) true :=
  ⟨rfl, photoStore_get_pure (DB.mk (some [("alice", "f1")]) true) "alice"
    (DB.mk (some [("alice", "f1")]) true) (some "f1") rfl⟩

/-- A single call against the photo store API, for reasoning about
sequences of operations. -/
inductive Op where
  | opInit
  | opSet (slug fid : String)
  | opGet (slug : String)
deriving DecidableEq, Repr

/-- Run one operation, keeping the resulting state (reads return the
state unchanged, by `photoStore_get_pure`-style reasoning made explicit
here through `Prod.fst`). -/
def runOp (db : DB) : Op → Except StorageError DB
  | .opInit => PhotoStore.init db
  | .opSet s f => PhotoStore.set_file_id db s f
  | .opGet s => (PhotoStore.get_file_id db s).map Prod.fst

/-- Run a sequence of operations, stopping at the first error (an
unhandled Python exception aborts the caller). -/
def runOps (db : DB) : List Op → Except StorageError DB
  | [] => .ok db
  | op :: rest =>
    match runOp db op with
    | .ok db' => runOps db' rest
    | .error e => .error e

/-- Whether an operation is a `set` on the given slug. -/
def setsSlug (s : String) : Op → Bool
  | .opSet s' _ => s' == s
  | _ => false

/-- No row for slug `s` exists in the store. -/
def slugUnset (db : DB) (s : String) : Prop :=
  ∀ t, db.photosTable = some t → PhotoStore.lookupFileId t s = none

/-- Operations do not change the availability of the underlying storage. -/
theorem runOp_available (db : DB) (op : Op) (db' : DB)
    (h : runOp db op = .ok db') : db'.available = db.available := by
  obtain ⟨pt, av⟩ := db
  cases op <;> cases av <;> cases pt <;>
    simp only [runOp, PhotoStore.init, PhotoStore.set_file_id, PhotoStore.get_file_id,
      Except.map, Except.ok.injEq] at h
  all_goals first
    | exact Except.noConfusion h
    | (subst h; rfl)

/-- A successful operation that is not a `set` on `s` keeps `s` unset. -/
theorem runOp_slugUnset (db : DB) (op : Op) (db' : DB) (s : String)
    (hop : runOp db op = .ok db') (hns : setsSlug s op = false)
    (h : slugUnset db s) : slugUnset db' s := by
  obtain ⟨pt, av⟩ := db
  cases op with
  | opInit =>
    cases av <;> cases pt <;>
      simp only [runOp, PhotoStore.init, Except.ok.injEq] at hop
    · exact Except.noConfusion hop
    · exact Except.noConfusion hop
    · subst hop
      intro t ht
      simp only [Option.some.injEq] at ht
      subst ht
      rfl
    · subst hop
      exact h
  | opSet s' f =>
    simp only [setsSlug, beq_eq_false_iff_ne, ne_eq] at hns
    cases av <;> cases pt <;>
      simp only [runOp, PhotoStore.set_file_id, Except.ok.injEq] at hop
    · exact Except.noConfusion hop
    · exact Except.noConfusion hop
    · exact Except.noConfusion hop
    · subst hop
      intro t ht
      simp only [Option.some.injEq] at ht
      subst ht
      rw [lookupFileId_upsert_other _ _ _ _ (Ne.symm hns)]
      exact h _ rfl
  | opGet s' =>
    cases av <;> cases pt <;>
      simp only [runOp, PhotoStore.get_file_id, Except.map, Except.ok.injEq] at hop
    · exact Except.noConfusion hop
    · exact Except.noConfusion hop
    · exact Except.noConfusion hop
    · subst hop
      exact h

/-- Sequences of operations preserve availability. -/
theorem runOps_available (ops : List Op) (db db' : DB)
    (h : runOps db ops = .ok db') : db'.available = db.available := by
  induction ops generalizing db with
  | nil =>
    simp only [runOps, Except.ok.injEq] at h
    subst h
    rfl
  | cons op rest ih =>
    simp only [runOps] at h
    cases hop : runOp db op with
    | ok db1 =>
      rw [hop] at h
      exact (ih db1 h).trans (runOp_available db op db1 hop)
    | error e =>
      rw [hop] at h
      exact Except.noConfusion h

/-- A successful sequence of operations containing no `set` on `s` keeps
`s` unset. -/
theorem runOps_slugUnset (ops : List Op) (s : String) :
    ∀ db db', ops.all (fun op => !(setsSlug s op)) = true →
      runOps db ops = .ok db' → slugUnset db s → slugUnset db' s := by
  induction ops with
  | nil =>
    intro db db' _ h hu
    simp only [runOps, Except.ok.injEq] at h
    subst h
    exact hu
  | cons op rest ih =>
    intro db db' hns h hu
    simp only [List.all_cons, Bool.and_eq_true] at hns
    simp only [runOps] at h
    cases hop : runOp db op with
    | ok db1 =>
      rw [hop] at h
      refine ih db1 db' hns.2 h ?_
      refine runOp_slugUnset db op db1 s hop ?_ hu
      simpa using hns.1
    | error e =>
      rw [hop] at h
      exact Except.noConfusion h

/-- C3: a never-set slug reads as absent, and the missing key is not an
error.  Starting from a fresh store, after any successful sequence of
operations none of which is a `set` on `s`, a `get(s)` on the resulting
(initialized) store succeeds and returns `none`. -/
theorem photoStore_get_never_set (s : String) (ops : List Op) (db' : DB)
    (t : List (String × String))
    (hns : ops.all (fun op => !(setsSlug s op)) = true)
    (hrun : runOps (DB.mk none true) ops = .ok db')
    (ht : db'.photosTable = some t) :
    PhotoStore.get_file_id db' s = .ok (db', none) := by
  have hav : db'.available = true := runOps_available ops _ db' hrun
  have hu : slugUnset db' s :=
    runOps_slugUnset ops s _ db' hns hrun (by intro t' ht'; exact Option.noConfusion ht')
  obtain ⟨pt, av⟩ := db'
  simp only at hav ht
  subst hav
  subst ht
  simp only [PhotoStore.get_file_id]
  rw [hu t rfl]

/-- Witness for C3: after `init` and a `set` on "bob", reading the
never-set slug "alice" succeeds and returns `none`. -/
theorem photoStore_get_never_set_witness :
    (([Op.opInit, Op.opSet "bob" "f1"]).all
      (fun op => !(setsSlug "alice" op)) = true) ∧
    runOps (DB.mk none true) [Op.opInit, Op.opSet "bob" "f1"] =
      .ok (DB.mk (some [("bob", "f1")]) true) ∧
    PhotoStore.get_file_id (DB.mk (some [("bob", "f1")]) true) "alice" =
      .ok (DB.mk (some [("bob", "f1")]) true, none) :=
  ⟨by decide, rfl, photoStore_get_never_set "alice" [Op.opInit, Op.opSet "bob" "f1"]
    (DB.mk (some [("bob", "f1")]) true) [("bob", "f1")] (by decide) rfl rfl⟩

/-- The slugs present after an upsert are the old slugs plus possibly the
upserted one. -/
theorem mem_keys_upsert (t : List (String × String)) (s f x : String) :
    x ∈ (PhotoStore.upsert t s f).map Prod.fst ↔ x ∈ t.map Prod.fst ∨ x = s := by
  induction t with
  | nil => simp [PhotoStore.upsert]
  | cons hd tl ih =>
    obtain ⟨a, b⟩ := hd
    by_cases h : a = s
    · subst h
      rw [show PhotoStore.upsert ((a, b) :: tl) a f = (a, f) :: tl from by
        simp [PhotoStore.upsert]]
      simp only [List.map_cons, List.mem_cons]
      tauto
    · rw [show PhotoStore.upsert ((a, b) :: tl) s f = (a, b) :: PhotoStore.upsert tl s f from by
        simp [PhotoStore.upsert, h]]
      simp only [List.map_cons, List.mem_cons, ih]
      tauto

/-- An upsert keeps the slugs of the table pairwise distinct. -/
theorem keys_upsert_nodup (t : List (String × String)) (s f : String)
    (h : (t.map Prod.fst).Nodup) :
    ((PhotoStore.upsert t s f).map Prod.fst).Nodup := by
  induction t with
  | nil => simp [PhotoStore.upsert]
  | cons hd tl ih =>
    obtain ⟨a, b⟩ := hd
    simp only [List.map_cons, List.nodup_cons] at h
    by_cases hc : a = s
    · subst hc
      rw [show PhotoStore.upsert ((a, b) :: tl) a f = (a, f) :: tl from by
        simp [PhotoStore.upsert]]
      simp only [List.map_cons, List.nodup_cons]
      exact h
    · rw [show PhotoStore.upsert ((a, b) :: tl) s f = (a, b) :: PhotoStore.upsert tl s f from by
        simp [PhotoStore.upsert, hc]]
      simp only [List.map_cons, List.nodup_cons]
      refine ⟨?_, ih h.2⟩
      intro hmem
      rcases (mem_keys_upsert tl s f a).mp hmem with hm | hm
      · exact h.1 hm
      · exact hc hm

/-- At most one file id per slug: every slug occurs at most once as a key
of the photos table. -/
def DB.wf (db : DB) : Prop :=
  ∀ t, db.photosTable = some t → (t.map Prod.fst).Nodup

/-- C5: the invariant "each slug maps to at most one file reference, with
no history retained" is preserved by every operation: any successful
`init`, `set` or `get` takes a well-formed store to a well-formed store. -/
theorem photoStore_wf_preserved (db : DB) (op : Op) (db' : DB)
    (hwf : DB.wf db) (h : runOp db op = .ok db') : DB.wf db' := by
  obtain ⟨pt, av⟩ := db
  cases op with
  | opInit =>
    cases av <;> cases pt <;>
      simp only [runOp, PhotoStore.init, Except.ok.injEq] at h
    · exact Except.noConfusion h
    · exact Except.noConfusion h
    · subst h
      intro t ht
      simp only [Option.some.injEq] at ht
      subst ht
      simp
    · subst h
      exact hwf
  | opSet s f =>
    cases av <;> cases pt <;>
      simp only [runOp, PhotoStore.set_file_id, Except.ok.injEq] at h
    · exact Except.noConfusion h
    · exact Except.noConfusion h
    · exact Except.noConfusion h
    · subst h
      intro t ht
      simp only [Option.some.injEq] at ht
      subst ht
      exact keys_upsert_nodup _ s f (hwf _ rfl)
  | opGet s =>
    cases av <;> cases pt <;>
      simp only [runOp, PhotoStore.get_file_id, Except.map, Except.ok.injEq] at h
    · exact Except.noConfusion h
    · exact Except.noConfusion h
    · exact Except.noConfusion h
    · subst h
      exact hwf

/-- Witness for C5: a concrete overwrite keeps the store well formed. -/
theorem photoStore_wf_preserved_witness :
    DB.wf (DB.mk (some [("alice", "f1")]) true) ∧
    runOp (DB.mk (some [("alice", "f1")]) true) (Op.opSet "alice" "f2") =
      .ok (DB.mk (some [("alice", "f2")]) true) ∧
    DB.wf (DB.mk (some [("alice", "f2")]) true) := by
  have hwf1 : DB.wf (DB.mk (some [("alice", "f1")]) true) := by
    intro t ht
    simp only [Option.some.injEq] at ht
    subst ht
    simp
  exact ⟨hwf1, rfl,
    photoStore_wf_preserved (DB.mk (some [("alice", "f1")]) true)
      (Op.opSet "alice" "f2") (DB.mk (some [("alice", "f2")]) true) hwf1 rfl⟩

/-!
Embedding of the admin photo-upload path of `src/app/main.py`:

* `is_admin` (lines 145-148),
* the dispatcher filter
  `F.photo & F.caption.regexp(r"^/photo\s+([a-z0-9\-]+)$")` (line 304);
  aiogram's `regexp` filter applies Python `re.match`, whose `$` also
  accepts a single newline at the end of the string,
* the handler `admin_photo_caption` (lines 305-312), which re-extracts
  the slug with `re.findall` on `message.caption.strip()` and calls
  `store.set_file_id(slug, message.photo[-1].file_id)`.

Only the fields the handler touches are modelled: the sender's username,
the list of photo sizes (each reduced to its `file_id` string) and the
caption.
-/

/-- The six ASCII characters matched by Python's regex class `\s`. -/
def isPySpace (c : Char) : Bool :=
  c == ' ' || c == '\t' || c == '\n' || c == '\r' || c == '\x0b' || c == '\x0c'

/-- The characters matched by the regex class `[a-z0-9\-]`. -/
def isSlugChar (c : Char) : Bool :=
  ('a' ≤ c && c ≤ 'z') || ('0' ≤ c && c ≤ '9') || c == '-'

/-- Python `str.strip()`: drop leading and trailing whitespace. -/
def pyStrip (s : String) : String :=
  String.mk (((s.data.dropWhile isPySpace).reverse.dropWhile isPySpace).reverse)

/-- Core of the regex `^/photo\s+([a-z0-9\-]+)$`: the literal `/photo`,
one or more whitespace characters, then the captured non-empty run of
slug characters reaching the end of the input. -/
def matchSlug (cs : List Char) : Option String :=
  if cs.take 6 = "/photo".data then
    let rest := cs.drop 6
    let sp := rest.takeWhile isPySpace
    let slug := rest.dropWhile isPySpace
    if sp.isEmpty then none
    else if slug.isEmpty then none
    else if slug.all isSlugChar then some (String.mk slug) else none
  else none

/-- Python `$` in `re.match` also accepts a single trailing newline. -/
def chopTrailingNewline (cs : List Char) : List Char :=
  if cs.getLast? = some '\n' then cs.dropLast else cs

/-- The dispatcher filter `F.caption.regexp(r"^/photo\s+([a-z0-9\-]+)$")`
applied to the raw caption. -/
def captionRegexpMatch (cap : String) : Option String :=
  matchSlug (chopTrailingNewline cap.data)

/-- The handler's own
`re.findall(r"^/photo\s+([a-z0-9\-]+)$", message.caption.strip())`,
first hit. -/
def captionFindall (cap : String) : Option String :=
  matchSlug (pyStrip cap).data

/-- A Telegram user as far as `is_admin` looks at it. -/
structure TgUser where
  username : Option String
deriving DecidableEq, Repr

/-- A Telegram message as far as the photo-upload path looks at it:
sender, photo sizes (as their `file_id`s) and caption. -/
structure TgMessage where
  from_user : Option TgUser
  photo : List String
  caption : Option String
deriving DecidableEq, Repr

/-- Python `str.lower()` (ASCII range, which covers Telegram usernames
and the `ADMIN_USERNAMES` environment entries). -/
def pyLower (s : String) : String :=
  String.mk (s.data.map Char.toLower)

/-- `is_admin` (main.py lines 145-148): a missing user, a missing
username or an empty username (all falsy in Python) yield `False`;
otherwise membership of the lowercased username in `ADMIN_USERNAMES`. -/
def is_admin (admins : List String) (msg : TgMessage) : Bool :=
  match msg.from_user with
  | none => false
  | some u =>
    match u.username with
    | none => false
    | some un => if un = "" then false else admins.contains (pyLower un)

/-- The admin photo-upload path: dispatcher filter plus handler
`admin_photo_caption`.  The second component of the result records the
`(slug, file_id)` argument pair of the `store.set_file_id` call when the
handler performed one, so that theorems can speak about what reaches the
cache. -/
def admin_photo_caption (admins : List String) (db : DB) (msg : TgMessage) :
    Except StorageError (DB × Option (String × String)) :=
  match msg.caption with
  | none => .ok (db, none)
  | some cap =>
    if msg.photo = [] then .ok (db, none)
    else
      match captionRegexpMatch cap with
      | none => .ok (db, none)
      | some _ =>
        if is_admin admins msg then
          match captionFindall cap with
          | some slug =>
            let fid := msg.photo.getLastD ""
            match PhotoStore.set_file_id db slug fid with
            | .ok db' => .ok (db', some (slug, fid))
            | .error e => .error e
          | none => .ok (db, none)
        else .ok (db, none)

/-- Any slug captured by the regex `^/photo\s+([a-z0-9\-]+)$` is a
non-empty run of characters from `[a-z0-9-]`. -/
theorem matchSlug_valid (cs : List Char) (slug : String)
    (h : matchSlug cs = some slug) :
    slug ≠ "" ∧ slug.data.all isSlugChar = true := by
  simp only [matchSlug] at h
  split at h
  case isTrue hpre =>
    split at h
    case isTrue => exact Option.noConfusion h
    case isFalse =>
      split at h
      case isTrue => exact Option.noConfusion h
      case isFalse hne =>
        split at h
        case isTrue hall =>
          simp only [Option.some.injEq] at h
          subst h
          refine ⟨?_, hall⟩
          intro hempty
          have hnil : (cs.drop 6).dropWhile isPySpace = [] := by
            have := congrArg String.data hempty
            simpa using this
          simp [hnil] at hne
        case isFalse => exact Option.noConfusion h
  case isFalse => exact Option.noConfusion h

/-- Helper for C10: when `is_admin` is false the handler replies and
returns without touching the store, whatever the message contains. -/
theorem admin_photo_nonadmin_aux (admins : List String) (db : DB) (msg : TgMessage)
    (hadm : is_admin admins msg = false) :
    admin_photo_caption admins db msg = .ok (db, none) := by
  unfold admin_photo_caption
  cases hcap : msg.caption with
  | none => rfl
  | some cap =>
    by_cases hph : msg.photo = []
    · simp [hph]
    · cases hre : captionRegexpMatch cap with
      | none => simp [hph, hre]
      | some s => simp [hph, hre, hadm]

/-- C10: the photo cache is never modified by a non-admin message: the
handler invokes `set_file_id` only for messages whose sender passes `is_admin`
(a username whose lowercase form is in `ADMIN_USERNAMES`); for every
message failing that check — no sender, no username, empty username, or
a username not in the set — the store state is unchanged and no write is
recorded. -/
theorem admin_photo_set_requires_admin (admins : List String) (db : DB)
    (msg : TgMessage) :
    (∀ db' c, admin_photo_caption admins db msg = .ok (db', some c) →
      is_admin admins msg = true) ∧
    (is_admin admins msg = false →
      admin_photo_caption admins db msg = .ok (db, none)) := by
  constructor
  · intro db' c h
    cases hia : is_admin admins msg with
    | true => rfl
    | false =>
      rw [admin_photo_nonadmin_aux admins db msg hia] at h
      simp at h
  · intro hia
    exact admin_photo_nonadmin_aux admins db msg hia

/-- A syntactically valid upload message from a non-admin sender. -/
def nonAdminMsg : TgMessage :=
  { from_user := some { username := some "bob" }, photo := ["file123"],
    caption := some "/photo alice" }

/-- Witness for C10: a message from the non-admin "bob" leaves a concrete
store untouched. -/
theorem admin_photo_set_requires_admin_witness :
    is_admin ["admin"] nonAdminMsg = false ∧
    admin_photo_caption ["admin"] (DB.mk (some []) true) nonAdminMsg =
      .ok (DB.mk (some []) true, none) :=
  ⟨rfl, (admin_photo_set_requires_admin ["admin"] (DB.mk (some []) true) nonAdminMsg).2 rfl⟩

/-- C9 (amended): every `set_file_id` call issued by the photo-upload
handler passes a slug that is non-empty and matches `[a-z0-9-]+` — the
caption regex enforces this before the cache is invoked.  (The file
reference is forwarded from the platform message without validation.) -/
theorem admin_photo_slug_validated (admins : List String) (db : DB)
    (msg : TgMessage) (db' : DB) (slug fid : String)
    (h : admin_photo_caption admins db msg = .ok (db', some (slug, fid))) :
    slug ≠ "" ∧ slug.data.all isSlugChar = true := by
  simp only [admin_photo_caption] at h
  split at h
  · simp at h
  · split at h
    · simp at h
    · split at h
      · simp at h
      · split at h
        · split at h
          · rename_i slug0 hfind
            split at h
            · simp only [Except.ok.injEq, Prod.mk.injEq, Option.some.injEq] at h
              obtain ⟨-, hs, -⟩ := h
              subst hs
              exact matchSlug_valid _ _ hfind
            · exact Except.noConfusion h
          · simp at h
        · simp at h

/-- A well-formed admin upload message. -/
def adminUploadMsg : TgMessage :=
  { from_user := some { username := some "admin" }, photo := ["file123"],
    caption := some "/photo alice" }

/-- Witness for the amended C9: the slug "alice" stored by a concrete
handler run is non-empty and matches `[a-z0-9-]+`. -/
theorem admin_photo_slug_validated_witness :
    admin_photo_caption ["admin"] (DB.mk (some []) true) adminUploadMsg =
      .ok (DB.mk (some [("alice", "file123")]) true, some ("alice", "file123")) ∧
    (("alice" : String) ≠ "" ∧ ("alice" : String).data.all isSlugChar = true) :=
  ⟨rfl, admin_photo_slug_validated ["admin"] (DB.mk (some []) true) adminUploadMsg
    (DB.mk (some [("alice", "file123")]) true) "alice" "file123" rfl⟩

/-- An admin upload whose photo carries an empty `file_id` string: the
platform type allows it and nothing in the handler checks it. -/
def emptyRefMsg : TgMessage :=
  { from_user := some { username := some "admin" }, photo := [""],
    caption := some "/photo alice" }

/-- Counterexample to C9 as stated: the handler performs
`set("alice", "")` — an empty file reference reaches storage and is then
served back by `get` — because the handler validates only the slug (via
the caption regex), never the file reference taken from
`message.photo[-1].file_id`. -/
theorem admin_photo_empty_reference_reaches_storage :
    admin_photo_caption ["admin"] (DB.mk (some []) true) emptyRefMsg =
      .ok (DB.mk (some [("alice", "")]) true, some ("alice", "")) ∧
    PhotoStore.get_file_id (DB.mk (some [("alice", "")]) true) "alice" =
      .ok (DB.mk (some [("alice", "")]) true, some "") :=
  ⟨rfl, rfl⟩
